import Mathlib

/-!
# A shallow embedding of the DataFusion SQL query planner

This file embeds `rust/datafusion/src/sql/planner.rs` (the SQL → logical
plan translator) in Lean 4 and proves properties of the translation.

Source functions are translated directly from the Rust code.  Types and
helpers that live in neighbouring modules of the repository (the logical
plan module, the arrow schema, the function catalogs, the DataFusion SQL
parser) are modelled from the specification; each such definition carries
a doc comment starting with `Modelled from the spec:`.

Rust `Result` values together with the possibility of a `panic!` are
embedded in the `Outcome` monad below: a Rust function either returns
`Ok`, returns `Err`, or aborts with a panic.
-/

namespace Planner

/-- The error enum of the crate (`DataFusionError` / `ExecutionError`
variants used by the planner). -/
inductive DFError where
  | notImplemented (msg : String)
  | plan (msg : String)
  | general (msg : String)
  | execution (msg : String)
  | internal (msg : String)
deriving DecidableEq

/-- Outcome of running a Rust function: an `Ok` value, an `Err` value, or
a panic (`unwrap` on `Err`, byte-slice out of bounds, ...). -/
inductive Outcome (α : Type) where
  | ok (a : α)
  | err (e : DFError)
  | panicked (msg : String)
deriving DecidableEq

def Outcome.bind {α β : Type} : Outcome α → (α → Outcome β) → Outcome β
  | .ok a, f => f a
  | .err e, _ => .err e
  | .panicked m, _ => .panicked m

instance : Monad Outcome where
  pure := Outcome.ok
  bind := Outcome.bind

/-- `true` iff the outcome is a panic. -/
def Outcome.isPanicked {α : Type} : Outcome α → Bool
  | .panicked _ => true
  | _ => false

/-- `true` iff the outcome is an `Ok` value. -/
def Outcome.isOk {α : Type} : Outcome α → Bool
  | .ok _ => true
  | _ => false

/-- Lift a Rust `Result` (the `?` operator on a non-panicking value). -/
def Outcome.ofExcept {α : Type} : Except DFError α → Outcome α
  | .ok a => .ok a
  | .error e => .err e

/-- `collect::<Result<Vec<_>>>`: map a fallible function over a list,
short-circuiting at the first error or panic. -/
def mapMOutcome {α β : Type} (f : α → Outcome β) : List α → Outcome (List β)
  | [] => .ok []
  | a :: as =>
    match f a with
    | .ok b =>
      match mapMOutcome f as with
      | .ok bs => .ok (b :: bs)
      | .err e => .err e
      | .panicked m => .panicked m
    | .err e => .err e
    | .panicked m => .panicked m

theorem mapMOutcome_ok_iff {α β : Type} (f : α → Outcome β) :
    ∀ (as : List α) (bs : List β),
      mapMOutcome f as = .ok bs ↔ List.Forall₂ (fun a b => f a = .ok b) as bs := by
  intro as
  induction as with
  | nil =>
    intro bs
    constructor
    · intro h
      cases h
      exact List.Forall₂.nil
    · intro h
      cases h
      rfl
  | cons a as ih =>
    intro bs
    constructor
    · intro h
      unfold mapMOutcome at h
      cases hfa : f a with
      | ok b =>
        rw [hfa] at h
        cases hrest : mapMOutcome f as with
        | ok bs' =>
          rw [hrest] at h
          cases h
          exact List.Forall₂.cons hfa ((ih bs').mp hrest)
        | err e => rw [hrest] at h; cases h
        | panicked m => rw [hrest] at h; cases h
      | err e => rw [hfa] at h; cases h
      | panicked m => rw [hfa] at h; cases h
    · intro h
      cases h with
      | cons hab hrest =>
        unfold mapMOutcome
        rw [hab, (ih _).mpr hrest]

/-! ## Arrow data types (modelled from the spec, §3 / §4.1) -/

/-- Modelled from the spec: arrow `DateUnit`. -/
inductive DateUnit where
  | day
  | millisecond
deriving DecidableEq

/-- Modelled from the spec: arrow `TimeUnit`. -/
inductive TimeUnit where
  | second
  | millisecond
  | microsecond
  | nanosecond
deriving DecidableEq

/-- Modelled from the spec: the arrow `DataType` variants used by the
planner and its tests. -/
inductive DataType where
  | null
  | boolean
  | int8
  | int16
  | int32
  | int64
  | uint8
  | uint16
  | uint32
  | uint64
  | float32
  | float64
  | utf8
  | date64 (unit : DateUnit)
  | time64 (unit : TimeUnit)
  | timestamp (unit : TimeUnit) (timezone : Option String)
deriving DecidableEq

/-- Modelled from the spec: the `sqlparser` SQL data-type AST.  The
variants the planner does not name individually are collapsed into
`otherTy` (they all hit the catch-all arm of both mappings); the carried
string is the variant's `Debug` rendering. -/
inductive SQLDataType where
  | char (len : Option Nat)
  | varchar (len : Option Nat)
  | text
  | decimal (precision scale : Option Nat)
  | float (len : Option Nat)
  | real
  | double
  | smallInt
  | int
  | bigInt
  | boolean
  | date
  | time
  | timestamp
  | otherTy (debugName : String)
deriving DecidableEq

/-- Modelled from the spec: the `{:?}` (Debug) rendering of a SQL data
type, used in `NotImplemented` error messages. -/
def SQLDataType.debugRender : SQLDataType → String
  | .char l => "Char(" ++ toString (repr l) ++ ")"
  | .varchar l => "Varchar(" ++ toString (repr l) ++ ")"
  | .text => "Text"
  | .decimal p s => "Decimal(" ++ toString (repr p) ++ ", " ++ toString (repr s) ++ ")"
  | .float l => "Float(" ++ toString (repr l) ++ ")"
  | .real => "Real"
  | .double => "Double"
  | .smallInt => "SmallInt"
  | .int => "Int"
  | .bigInt => "BigInt"
  | .boolean => "Boolean"
  | .date => "Date"
  | .time => "Time"
  | .timestamp => "Timestamp"
  | .otherTy d => d

/-- `SqlToRel::make_data_type`: maps the SQL type to the corresponding
arrow `DataType` for DDL (CREATE EXTERNAL TABLE column definitions). -/
def make_data_type (sql_type : SQLDataType) : Except DFError DataType :=
  match sql_type with
  | .bigInt => .ok .int64
  | .int => .ok .int32
  | .smallInt => .ok .int16
  | .char _ => .ok .utf8
  | .varchar _ => .ok .utf8
  | .text => .ok .utf8
  | .decimal _ _ => .ok .float64
  | .float _ => .ok .float32
  | .real => .ok .float64
  | .double => .ok .float64
  | .boolean => .ok .boolean
  | .date => .ok (.date64 .day)
  | .time => .ok (.time64 .millisecond)
  | .timestamp => .ok (.date64 .millisecond)
  | other =>
    .error (.notImplemented
      ("The SQL data type " ++ other.debugRender ++ " is not implemented"))

/-- `convert_data_type`: maps the SQL type to the corresponding arrow
`DataType` for `CAST` expressions. -/
def convert_data_type (sql : SQLDataType) : Except DFError DataType :=
  match sql with
  | .boolean => .ok .boolean
  | .smallInt => .ok .int16
  | .int => .ok .int32
  | .bigInt => .ok .int64
  | .float _ => .ok .float64
  | .real => .ok .float64
  | .double => .ok .float64
  | .char _ => .ok .utf8
  | .varchar _ => .ok .utf8
  | .timestamp => .ok (.timestamp .nanosecond none)
  | other =>
    .error (.notImplemented ("Unsupported SQL type " ++ other.debugRender))

/-! ## Relational expressions (modelled from the spec, §3) -/

/-- Modelled from the spec: the binary operator enum of the logical-plan
module (`Operator`). -/
inductive Operator where
  | eq | notEq | lt | ltEq | gt | gtEq
  | plus | minus | multiply | divide | modulus
  | and | or | like | notLike
deriving DecidableEq

/-- Modelled from the spec: a built-in scalar function
(`functions::BuiltinScalarFunction`, external catalog); identified here
by its canonical name. -/
structure ScalarFun where
  canonicalName : String
deriving DecidableEq

/-- Modelled from the spec: the built-in aggregate enum
(`aggregates::AggregateFunction`, external catalog). -/
inductive AggFun where
  | count | min | max | sum | avg
deriving DecidableEq

/-- Modelled from the spec: scalar literal values (`ScalarValue`).  A
64-bit float literal is kept as its source token (no floating-point
arithmetic happens in the planner). -/
inductive ScalarValue where
  | int64 (n : Int)
  | uint8 (n : Nat)
  | float64 (token : String)
  | utf8 (s : String)
  | boolean (b : Bool)
deriving DecidableEq

/-- Modelled from the spec: the relational expression tree (`Expr` of the
logical-plan module). -/
inductive Expr where
  | literal (v : ScalarValue)
  | column (name : String)
  | scalarVariable (names : List String)
  | aliasE (e : Expr) (name : String)
  | binaryExpr (left : Expr) (op : Operator) (right : Expr)
  | notE (e : Expr)
  | isNull (e : Expr)
  | isNotNull (e : Expr)
  | cast (e : Expr) (dataType : DataType)
  | sortE (e : Expr) (asc : Bool) (nullsFirst : Bool)
  | scalarFunction (fn : ScalarFun) (args : List Expr)
  | aggregateFunction (fn : AggFun) (distinct : Bool) (args : List Expr)
  | scalarUDF (fn : String) (args : List Expr)
  | aggregateUDF (fn : String) (args : List Expr)
  | wildcard

/-- `lit(n)` for a signed 64-bit integer literal. -/
def litI64 (n : Int) : Expr := .literal (.int64 n)

/-- `lit(1_u8)`. -/
def litU8 (n : Nat) : Expr := .literal (.uint8 n)

mutual

/-- `is_aggregate_expr`: determine if an expression is an aggregate
expression or not. -/
def is_aggregate_expr : Expr → Bool
  | .aggregateFunction _ _ _ => true
  | .aggregateUDF _ _ => true
  | .aliasE e _ => is_aggregate_expr e
  | .binaryExpr l _ r => is_aggregate_expr l || is_aggregate_expr r
  | .scalarFunction _ args => is_aggregate_expr_any args
  | _ => false

/-- `args.iter().any(|e| is_aggregate_expr(e))`. -/
def is_aggregate_expr_any : List Expr → Bool
  | [] => false
  | e :: es => is_aggregate_expr e || is_aggregate_expr_any es

end

mutual

/-- `collect_aggregate_expr`: collect aggregate expressions
hierarchically, appending to the accumulator. -/
def collect_aggregate_expr : Expr → List Expr → List Expr
  | e@(.aggregateFunction _ _ _), result => result ++ [e]
  | e@(.aggregateUDF _ _), result => result ++ [e]
  | .aliasE e _, result => collect_aggregate_expr e result
  | .binaryExpr l _ r, result => collect_aggregate_expr r (collect_aggregate_expr l result)
  | .scalarFunction _ args, result => collect_aggregate_expr_list args result
  | _, result => result

/-- The fold of `collect_aggregate_expr` over a function's arguments. -/
def collect_aggregate_expr_list : List Expr → List Expr → List Expr
  | [], result => result
  | e :: es, result => collect_aggregate_expr_list es (collect_aggregate_expr e result)

end

/-- Stated from the claim's words, to be compared with the source's
`is_aggregate_expr`: an `AggregateFunction` or `AggregateUDF` node is
reachable from the root passing only through `Alias`, `BinaryExpr`
(left and right), and `ScalarFunction` argument edges. -/
inductive AggReachable : Expr → Prop where
  | aggFun (f : AggFun) (d : Bool) (args : List Expr) :
      AggReachable (.aggregateFunction f d args)
  | aggUDF (f : String) (args : List Expr) :
      AggReachable (.aggregateUDF f args)
  | aliasStep {e : Expr} (n : String) :
      AggReachable e → AggReachable (.aliasE e n)
  | binLeft {l : Expr} (op : Operator) (r : Expr) :
      AggReachable l → AggReachable (.binaryExpr l op r)
  | binRight (l : Expr) (op : Operator) {r : Expr} :
      AggReachable r → AggReachable (.binaryExpr l op r)
  | scalarArg (f : ScalarFun) {e : Expr} {args : List Expr} :
      e ∈ args → AggReachable e → AggReachable (.scalarFunction f args)

theorem is_aggregate_expr_any_iff (args : List Expr)
    (h : ∀ e ∈ args, (is_aggregate_expr e = true ↔ AggReachable e)) :
    is_aggregate_expr_any args = true ↔ ∃ e ∈ args, AggReachable e := by
  induction args with
  | nil => simp [is_aggregate_expr_any]
  | cons a as ihl =>
    rw [is_aggregate_expr_any, Bool.or_eq_true,
      h a (List.mem_cons_self a as),
      ihl (fun e he => h e (List.mem_cons_of_mem a he))]
    simp

theorem is_aggregate_expr_iff_aux :
    ∀ (n : Nat) (e : Expr), sizeOf e ≤ n →
      (is_aggregate_expr e = true ↔ AggReachable e) := by
  intro n
  induction n using Nat.strong_induction_on with
  | _ n ih =>
    intro e he
    cases e with
    | aggregateFunction f d args =>
      simp only [is_aggregate_expr, true_iff]
      exact .aggFun f d args
    | aggregateUDF f args =>
      simp only [is_aggregate_expr, true_iff]
      exact .aggUDF f args
    | aliasE inner nm =>
      have hlt : sizeOf inner < sizeOf (Expr.aliasE inner nm) := by
        simp
        omega
      have hinner := ih (sizeOf inner) (lt_of_lt_of_le hlt he) inner (le_refl _)
      rw [is_aggregate_expr, hinner]
      constructor
      · exact fun h => .aliasStep nm h
      · intro h
        cases h with
        | aliasStep _ h2 => exact h2
    | binaryExpr l op r =>
      have hl : sizeOf l < sizeOf (Expr.binaryExpr l op r) := by
        simp
        omega
      have hr : sizeOf r < sizeOf (Expr.binaryExpr l op r) := by
        simp
      have ihl := ih (sizeOf l) (lt_of_lt_of_le hl he) l (le_refl _)
      have ihr := ih (sizeOf r) (lt_of_lt_of_le hr he) r (le_refl _)
      rw [is_aggregate_expr, Bool.or_eq_true, ihl, ihr]
      constructor
      · intro h
        cases h with
        | inl h2 => exact .binLeft op r h2
        | inr h2 => exact .binRight l op h2
      · intro h
        cases h with
        | binLeft _ _ h2 => exact Or.inl h2
        | binRight _ _ h2 => exact Or.inr h2
    | scalarFunction f args =>
      have hargs : sizeOf args < sizeOf (Expr.scalarFunction f args) := by
        simp
      have hmem : ∀ e ∈ args, (is_aggregate_expr e = true ↔ AggReachable e) := by
        intro e hememb
        have h1 : sizeOf e < sizeOf args := List.sizeOf_lt_of_mem hememb
        exact ih (sizeOf e) (lt_of_lt_of_le (h1.trans hargs) he) e (le_refl _)
      rw [is_aggregate_expr, is_aggregate_expr_any_iff args hmem]
      constructor
      · intro h
        obtain ⟨e, hememb, hr⟩ := h
        exact .scalarArg f hememb hr
      · intro h
        cases h with
        | scalarArg _ hememb hr => exact ⟨_, hememb, hr⟩
    | literal v =>
      simp [is_aggregate_expr]
      intro h
      cases h
    | column nm =>
      simp [is_aggregate_expr]
      intro h
      cases h
    | scalarVariable names =>
      simp [is_aggregate_expr]
      intro h
      cases h
    | notE inner =>
      simp [is_aggregate_expr]
      intro h
      cases h
    | isNull inner =>
      simp [is_aggregate_expr]
      intro h
      cases h
    | isNotNull inner =>
      simp [is_aggregate_expr]
      intro h
      cases h
    | cast inner dt =>
      simp [is_aggregate_expr]
      intro h
      cases h
    | sortE inner a nf =>
      simp [is_aggregate_expr]
      intro h
      cases h
    | scalarUDF f args =>
      simp [is_aggregate_expr]
      intro h
      cases h
    | wildcard =>
      simp [is_aggregate_expr]
      intro h
      cases h

/-- **C6**: `is_aggregate_expr e` returns `true` iff an
`AggregateFunction` or `AggregateUDF` node is reachable from the root of
`e` passing only through `Alias`, `BinaryExpr` (left and right) and
`ScalarFunction` argument edges; in particular it returns `false` on
`Cast`, `IsNull`, `IsNotNull`, `Not` and `ScalarUDF` nodes, whatever
aggregates they contain. -/
theorem c6_is_aggregate_expr_characterisation :
    (∀ e : Expr, is_aggregate_expr e = true ↔ AggReachable e) ∧
    (∀ (e : Expr) (dt : DataType), is_aggregate_expr (.cast e dt) = false) ∧
    (∀ e : Expr, is_aggregate_expr (.isNull e) = false) ∧
    (∀ e : Expr, is_aggregate_expr (.isNotNull e) = false) ∧
    (∀ e : Expr, is_aggregate_expr (.notE e) = false) ∧
    (∀ (f : String) (args : List Expr),
      is_aggregate_expr (.scalarUDF f args) = false) := by
  refine ⟨fun e => is_aggregate_expr_iff_aux (sizeOf e) e (le_refl _),
    ?_, ?_, ?_, ?_, ?_⟩ <;> intros <;> simp [is_aggregate_expr]

/-- Witness for C6: an aggregate under a `Cast` is not detected, while
one under an `Alias` is. -/
theorem c6_is_aggregate_expr_characterisation_witness :
    is_aggregate_expr
      (Expr.cast (.aggregateFunction .count false []) DataType.int64) =
      false ∧
    is_aggregate_expr
      (Expr.aliasE (.aggregateFunction .count false []) "x") = true := by
  constructor
  · exact c6_is_aggregate_expr_characterisation.2.1
      (.aggregateFunction .count false []) DataType.int64
  · exact (c6_is_aggregate_expr_characterisation.1 _).mpr
      (.aliasStep "x" (.aggFun AggFun.count false []))

/-- Modelled from the spec: rendering of the operator inside a computed
name. -/
def Operator.render : Operator → String
  | .eq => "Eq" | .notEq => "NotEq" | .lt => "Lt" | .ltEq => "LtEq"
  | .gt => "Gt" | .gtEq => "GtEq" | .plus => "Plus" | .minus => "Minus"
  | .multiply => "Multiply" | .divide => "Divide" | .modulus => "Modulus"
  | .and => "And" | .or => "Or" | .like => "Like" | .notLike => "NotLike"

/-- Modelled from the spec: rendering of a built-in aggregate's name. -/
def AggFun.render : AggFun → String
  | .count => "COUNT" | .min => "MIN" | .max => "MAX"
  | .sum => "SUM" | .avg => "AVG"

/-- Modelled from the spec: rendering of a scalar literal inside a
computed name. -/
def ScalarValue.render : ScalarValue → String
  | .int64 n => "Int64(" ++ toString n ++ ")"
  | .uint8 n => "UInt8(" ++ toString n ++ ")"
  | .float64 tok => "Float64(" ++ tok ++ ")"
  | .utf8 s => "Utf8(" ++ s ++ ")"
  | .boolean b => "Boolean(" ++ toString b ++ ")"

mutual

/-- Modelled from the spec: the computed-name formatter (`Expr::name` of
the logical-plan module, an external collaborator).  Deterministic and
structural: structurally identical expressions get identical names. -/
def exprName : Expr → String
  | .literal v => v.render
  | .column n => n
  | .scalarVariable names => String.intercalate "." names
  | .aliasE _ a => a
  | .binaryExpr l op r => exprName l ++ " " ++ op.render ++ " " ++ exprName r
  | .notE e => "NOT " ++ exprName e
  | .isNull e => exprName e ++ " IS NULL"
  | .isNotNull e => exprName e ++ " IS NOT NULL"
  | .cast e _ => "CAST(" ++ exprName e ++ ")"
  | .sortE e _ _ => exprName e
  | .scalarFunction f args => f.canonicalName ++ "(" ++ exprNameList args ++ ")"
  | .aggregateFunction f _ args => f.render ++ "(" ++ exprNameList args ++ ")"
  | .scalarUDF f args => f ++ "(" ++ exprNameList args ++ ")"
  | .aggregateUDF f args => f ++ "(" ++ exprNameList args ++ ")"
  | .wildcard => "*"

/-- Comma-joined computed names of an argument list. -/
def exprNameList : List Expr → String
  | [] => ""
  | [e] => exprName e
  | e :: es => exprName e ++ ", " ++ exprNameList es

end

mutual

/-- `replace_aggregate_expr_in_projection`: rewrite a projection
expression so that any subexpression whose computed name is among the
aggregate output field names becomes a column reference to that field. -/
def replace_aggregate_expr_in_projection (aggregate_expr : List String)
    (e : Expr) : Expr :=
  if exprName e ∈ aggregate_expr then .column (exprName e)
  else
    match e with
    | .aliasE inner a =>
      .aliasE (replace_aggregate_expr_in_projection aggregate_expr inner) a
    | .binaryExpr l op r =>
      .binaryExpr (replace_aggregate_expr_in_projection aggregate_expr l) op
        (replace_aggregate_expr_in_projection aggregate_expr r)
    | .scalarFunction f args =>
      .scalarFunction f (replace_aggregate_list aggregate_expr args)
    | x => x
termination_by sizeOf e

/-- `replace_aggregate_expr_in_projection` mapped over arguments. -/
def replace_aggregate_list (aggregate_expr : List String)
    (l : List Expr) : List Expr :=
  match l with
  | [] => []
  | e :: es =>
    replace_aggregate_expr_in_projection aggregate_expr e ::
      replace_aggregate_list aggregate_expr es
termination_by sizeOf l

end

/-! ## Schemas (modelled from the spec, §3) -/

/-- Modelled from the spec: an arrow `Field{name, data_type, nullable}`. -/
structure Field where
  name : String
  dataType : DataType
  nullable : Bool
deriving DecidableEq

/-- Modelled from the spec: an arrow `Schema` is an ordered sequence of
fields (structural equality, as used by the UNION ALL check). -/
abbrev Schema := List Field

/-- Modelled from the spec: arrow's `Schema::field_with_name` — the first
field carrying the given name, if any. -/
def fieldWithName (schema : Schema) (nm : String) : Option Field :=
  schema.find? (fun f => f.name == nm)

/-- Modelled from the spec: the `to_string` rendering of a schema used in
diagnostic messages (the exact text is not pinned by the source file). -/
def schemaRender (schema : Schema) : String :=
  String.intercalate ", " (schema.map (fun f => f.name))

/-- Modelled from the spec: the return-type inference of the logical-plan
module (an external collaborator), used only to fill the `data_type` slot
of derived schema fields.  Deterministic and structural. -/
def exprType (schema : Schema) : Expr → DataType
  | .literal (.int64 _) => .int64
  | .literal (.uint8 _) => .uint8
  | .literal (.float64 _) => .float64
  | .literal (.utf8 _) => .utf8
  | .literal (.boolean _) => .boolean
  | .column nm =>
    match fieldWithName schema nm with
    | some f => f.dataType
    | none => .null
  | .scalarVariable _ => .utf8
  | .aliasE e _ => exprType schema e
  | .binaryExpr l op _ =>
    match op with
    | .plus | .minus | .multiply | .divide | .modulus => exprType schema l
    | _ => .boolean
  | .notE _ => .boolean
  | .isNull _ => .boolean
  | .isNotNull _ => .boolean
  | .cast _ dt => dt
  | .sortE e _ _ => exprType schema e
  | .scalarFunction _ _ => .float64
  | .aggregateFunction .count _ _ => .uint64
  | .aggregateFunction _ _ _ => .float64
  | .scalarUDF _ _ => .float64
  | .aggregateUDF _ _ => .float64
  | .wildcard => .null

/-- Modelled from the spec: the schema field derived from an expression
(name from the computed-name formatter, type from inference). -/
def exprToField (schema : Schema) (e : Expr) : Field :=
  { name := exprName e, dataType := exprType schema e, nullable := true }

/-! ## The SQL expression AST (modelled from the spec, §6) -/

/-- Modelled from the spec: `sqlparser` literal values; variants the
planner does not handle are collapsed into `otherV`. -/
inductive SQLValue where
  | number (tok : String)
  | singleQuotedString (s : String)
  | otherV (debugName : String)
deriving DecidableEq

/-- Modelled from the spec: `sqlparser` unary operators. -/
inductive UnaryOperator where
  | not
  | otherUnary (debugName : String)
deriving DecidableEq

/-- Modelled from the spec: `sqlparser` binary operators. -/
inductive BinaryOperator where
  | gt | gtEq | lt | ltEq | eq | notEq
  | plus | minus | multiply | divide | modulus
  | and | or | like | notLike
  | otherBin (debugName : String)
deriving DecidableEq

/-- Modelled from the spec: the `sqlparser` scalar-expression AST
(`SQLExpr`); shapes the planner does not recognise are collapsed into
`otherE` and hit the catch-all `NotImplemented` arm. -/
inductive SQLExpr where
  | value (v : SQLValue)
  | identifier (id : String)
  | compoundIdentifier (ids : List String)
  | wildcard
  | cast (e : SQLExpr) (dataType : SQLDataType)
  | isNull (e : SQLExpr)
  | isNotNull (e : SQLExpr)
  | unaryOp (op : UnaryOperator) (e : SQLExpr)
  | binaryOp (l : SQLExpr) (op : BinaryOperator) (r : SQLExpr)
  | function (name : String) (distinct : Bool) (args : List SQLExpr)
  | nested (e : SQLExpr)
  | otherE (debugName : String)

/-- Modelled from the spec: the external catalogs consumed by the
planner: the built-in scalar lookup (`BuiltinScalarFunction::from_str`),
the built-in aggregate lookup (`AggregateFunction::from_str`), and the
`SchemaProvider` capability (UDF/UDAF descriptors are identified by
name). -/
structure Catalog where
  scalarFromStr : String → Option ScalarFun
  aggregateFromStr : String → Option AggFun
  getFunctionMeta : String → Option String
  getAggregateMeta : String → Option String
  getTableMeta : String → Option Schema

/-! ## Numeric token parsing (modelled from the spec / Rust std) -/

/-- Value of a non-empty digit string, `none` on a non-digit. -/
def parseDigits (cs : List Char) : Option Nat :=
  if cs.isEmpty then none
  else
    cs.foldl
      (fun acc c =>
        match acc with
        | some v => if c.isDigit then some (v * 10 + (c.toNat - 48)) else none
        | none => none)
      (some 0)

/-- The digits part of `parseUsize`: value of the digit string when it
fits in 64 bits. -/
def parseUsizeDigits (cs : List Char) : Option Nat :=
  match parseDigits cs with
  | some v => if v < 18446744073709551616 then some v else none
  | none => none

/-- Modelled from the spec: Rust's `str::parse::<usize>` on a 64-bit
machine — optional `+` sign, one or more digits, value below `2^64`. -/
def parseUsize (s : String) : Option Nat :=
  match s.data with
  | '+' :: rest => parseUsizeDigits rest
  | '-' :: _ => none
  | cs => parseUsizeDigits cs

/-- Modelled from the spec: Rust's `str::parse::<i64>` — optional sign,
one or more digits, value within the signed 64-bit range. -/
def parseI64 (s : String) : Option Int :=
  match s.data with
  | '+' :: rest =>
    (parseDigits rest).bind
      (fun v => if v ≤ 9223372036854775807 then some (Int.ofNat v) else none)
  | '-' :: rest =>
    (parseDigits rest).bind
      (fun v => if v ≤ 9223372036854775808 then some (-(Int.ofNat v)) else none)
  | cs =>
    (parseDigits cs).bind
      (fun v => if v ≤ 9223372036854775807 then some (Int.ofNat v) else none)

/-- Modelled from the spec: Rust's `str::to_lowercase` (the function
names the planner folds are ASCII; character-wise lowering). -/
def strToLower (s : String) : String := ⟨s.data.map Char.toLower⟩

/-- Modelled from the spec: Rust's `str::to_uppercase` (ASCII,
character-wise). -/
def strToUpper (s : String) : String := ⟨s.data.map Char.toUpper⟩

/-- Splits a character list at the first `e` (exponent marker). -/
def splitAtExp : List Char → (List Char × Option (List Char))
  | [] => ([], none)
  | c :: cs =>
    if c = 'e' then ([], some cs)
    else
      let (m, ex) := splitAtExp cs
      (c :: m, ex)

/-- Mantissa shape: `digits`, `digits.digits*` or `.digits+`. -/
def mantissaOk (cs : List Char) : Bool :=
  let intPart := cs.takeWhile Char.isDigit
  let rest := cs.dropWhile Char.isDigit
  match rest with
  | [] => !intPart.isEmpty
  | '.' :: frac => (!intPart.isEmpty || !frac.isEmpty) && frac.all Char.isDigit
  | _ => false

/-- Exponent shape: absent, or optional sign plus one or more digits. -/
def exponentOk : Option (List Char) → Bool
  | none => true
  | some cs =>
    let body :=
      match cs with
      | '+' :: r => r
      | '-' :: r => r
      | r => r
    !body.isEmpty && body.all Char.isDigit

/-- Modelled from the spec: acceptance of Rust's `str::parse::<f64>` —
optional sign, then a decimal mantissa with optional exponent, or one of
the special words `inf`, `infinity`, `nan` (case-insensitive). -/
def parseF64Ok (s : String) : Bool :=
  let body :=
    match (strToLower s).data with
    | '+' :: r => r
    | '-' :: r => r
    | r => r
  if body = "inf".data || body = "infinity".data || body = "nan".data then true
  else
    let (mant, ex) := splitAtExp body
    mantissaOk mant && exponentOk ex

/-! ## Expression lowering (`SqlToRel::sql_to_rex`) -/

/-- Modelled from the spec: Rust byte-slicing `&s[0..1]` on a UTF-8
string — `Ok` with the one-byte slice when the string is non-empty and
its first character occupies a single byte; a panic otherwise (range out
of bounds, or byte index 1 not a character boundary). -/
def firstByteSlice (s : String) : Outcome String :=
  if s = "" then .panicked "byte index 1 is out of bounds"
  else if (s.get ⟨0⟩).utf8Size ≠ 1 then
    .panicked "byte index 1 is not a char boundary"
  else .ok (String.singleton (s.get ⟨0⟩))

/-- The SQL → engine binary-operator mapping of `sql_to_rex`. -/
def binaryOperatorToOperator : BinaryOperator → Except DFError Operator
  | .gt => .ok .gt
  | .gtEq => .ok .gtEq
  | .lt => .ok .lt
  | .ltEq => .ok .ltEq
  | .eq => .ok .eq
  | .notEq => .ok .notEq
  | .plus => .ok .plus
  | .minus => .ok .minus
  | .multiply => .ok .multiply
  | .divide => .ok .divide
  | .modulus => .ok .modulus
  | .and => .ok .and
  | .or => .ok .or
  | .like => .ok .like
  | .notLike => .ok .notLike
  | .otherBin d =>
    .error (.notImplemented ("Unsupported SQL binary operator " ++ d))

/-- The `COUNT`-argument shapes that the source substitutes by
`Literal(UInt8 1)`: number literals and wildcards. -/
def countArgSubstituted : SQLExpr → Bool
  | .value (.number _) => true
  | .wildcard => true
  | _ => false

mutual

/-- `SqlToRel::sql_to_rex`: generate a relational expression from a SQL
expression, against a schema and an aliased-schema map. -/
def sql_to_rex (cat : Catalog) (schema : Schema)
    (aliased_schema : List (String × Schema)) (sql : SQLExpr) : Outcome Expr :=
  match sql with
  | .value (.number n) =>
    match parseI64 n with
    | some v => .ok (litI64 v)
    | none =>
      -- `n.parse::<f64>().unwrap()`: a failing float parse panics
      if parseF64Ok n then .ok (.literal (.float64 n))
      else .panicked ("cannot parse " ++ n ++ " as f64")
  | .value (.singleQuotedString s) => .ok (.literal (.utf8 s))
  | .identifier id => do
    let slice ← firstByteSlice id
    if slice = "@" then pure (.scalarVariable [id])
    else
      match fieldWithName schema id with
      | some field => pure (.column field.name)
      | none =>
        Outcome.err (.plan ("Invalid identifier '" ++ id ++ "' for schema " ++
          schemaRender schema))
  | .compoundIdentifier ids =>
    match ids with
    | [] => .panicked "index out of bounds: the len is 0 but the index is 0"
    | v0 :: rest => do
      let slice ← firstByteSlice v0
      if slice = "@" then pure (.scalarVariable (v0 :: rest))
      else if (aliased_schema.lookup v0).isSome then
        match rest with
        | [] =>
          Outcome.panicked "index out of bounds: the len is 1 but the index is 1"
        | v1 :: _ =>
          match fieldWithName schema v1 with
          | some field => pure (.column field.name)
          | none =>
            Outcome.err (.execution ("Invalid identifier '" ++ v1 ++
              "' for schema " ++ schemaRender schema))
      else
        Outcome.err (.plan ("Invalid compound identifier '" ++
          String.intercalate "." (v0 :: rest) ++
          "'. Alias not found among aliased schemas"))
  | .wildcard => .ok .wildcard
  | .cast e dt => do
    let inner ← sql_to_rex cat schema aliased_schema e
    let t ← Outcome.ofExcept (convert_data_type dt)
    pure (.cast inner t)
  | .isNull e => do
    let inner ← sql_to_rex cat schema aliased_schema e
    pure (.isNull inner)
  | .isNotNull e => do
    let inner ← sql_to_rex cat schema aliased_schema e
    pure (.isNotNull inner)
  | .unaryOp op e =>
    match op with
    | .not => do
      let inner ← sql_to_rex cat schema aliased_schema e
      pure (.notE inner)
    | .otherUnary _ =>
      .err (.internal
        "SQL binary operator cannot be interpreted as a unary operator")
  | .binaryOp l op r => do
    let oper ← Outcome.ofExcept (binaryOperatorToOperator op)
    let le ← sql_to_rex cat schema aliased_schema l
    let re ← sql_to_rex cat schema aliased_schema r
    pure (.binaryExpr le oper re)
  | .function name distinct args =>
    let lname := strToLower name
    match cat.scalarFromStr lname with
    | some fn => do
      let largs ← sql_to_rex_list cat schema aliased_schema args
      pure (.scalarFunction fn largs)
    | none =>
      -- the NULLIF branch is entered iff the name is "nullif" and "if"
      -- resolves as a built-in scalar; otherwise it falls through to the
      -- aggregate and UDF lookups
      if strToLower lname = "nullif" then
        match cat.scalarFromStr "if" with
        | some if_fn => sql_to_rex_nullif cat schema aliased_schema if_fn args
        | none =>
          sql_to_rex_function_tail cat schema aliased_schema lname distinct args
      else
        sql_to_rex_function_tail cat schema aliased_schema lname distinct args
  | .nested e => sql_to_rex cat schema aliased_schema e
  | .value (.otherV d) =>
    .err (.notImplemented ("Unsupported ast node " ++ d ++ " in sqltorel"))
  | .otherE d =>
    .err (.notImplemented ("Unsupported ast node " ++ d ++ " in sqltorel"))
termination_by (sizeOf sql, 1)

/-- The NULLIF special form: require exactly two arguments, then rewrite
`NULLIF(a, b)` to `IF(a != b, a)`. -/
def sql_to_rex_nullif (cat : Catalog) (schema : Schema)
    (aliased_schema : List (String × Schema)) (if_fn : ScalarFun)
    (args : List SQLExpr) : Outcome Expr :=
  match args with
  | [a, b] => do
    let la ← sql_to_rex cat schema aliased_schema a
    let lb ← sql_to_rex cat schema aliased_schema b
    let la2 ← sql_to_rex cat schema aliased_schema a
    pure (.scalarFunction if_fn [.binaryExpr la .notEq lb, la2])
  | _ =>
    -- the source formats the argument list with `{:?}`; the exact text
    -- is not pinned by the source file
    .err (.general ("nullif expects 2 arguments but found: " ++
      toString args.length ++ " arguments"))
termination_by (sizeOf args, 1)

/-- The aggregate and UDF lookups of the `Function` arm of `sql_to_rex`
(the continuation after the built-in scalar and NULLIF branches). -/
def sql_to_rex_function_tail (cat : Catalog) (schema : Schema)
    (aliased_schema : List (String × Schema)) (lname : String)
    (distinct : Bool) (args : List SQLExpr) : Outcome Expr :=
  match cat.aggregateFromStr lname with
  | some fn => do
    let largs ←
      (if fn = AggFun.count then
        sql_to_rex_count_args cat schema aliased_schema args
      else
        sql_to_rex_list cat schema aliased_schema args)
    pure (.aggregateFunction fn distinct largs)
  | none =>
    match (cat.getFunctionMeta lname).orElse
        (fun _ => cat.getFunctionMeta (strToUpper lname)) with
    | some fm => do
      let largs ← sql_to_rex_list cat schema aliased_schema args
      pure (.scalarUDF fm largs)
    | none =>
      match (cat.getAggregateMeta lname).orElse
          (fun _ => cat.getAggregateMeta (strToUpper lname)) with
      | some fm => do
        let largs ← sql_to_rex_list cat schema aliased_schema args
        pure (.aggregateUDF fm largs)
      | none => .err (.plan ("Invalid function '" ++ lname ++ "'"))
termination_by (sizeOf args, 1)

/-- `args.iter().map(|a| self.sql_to_rex(a, ...)).collect::<Result<...>>`. -/
def sql_to_rex_list (cat : Catalog) (schema : Schema)
    (aliased_schema : List (String × Schema)) (args : List SQLExpr) :
    Outcome (List Expr) :=
  match args with
  | [] => .ok []
  | a :: as => do
    let la ← sql_to_rex cat schema aliased_schema a
    let las ← sql_to_rex_list cat schema aliased_schema as
    pure (la :: las)
termination_by (sizeOf args, 0)

/-- The `COUNT` argument lowering: number literals and wildcards become
`Literal(UInt8 1)`, other arguments are lowered normally. -/
def sql_to_rex_count_args (cat : Catalog) (schema : Schema)
    (aliased_schema : List (String × Schema)) (args : List SQLExpr) :
    Outcome (List Expr) :=
  match args with
  | [] => .ok []
  | a :: as => do
    let la ←
      (if countArgSubstituted a then .ok (litU8 1)
       else sql_to_rex cat schema aliased_schema a)
    let las ← sql_to_rex_count_args cat schema aliased_schema as
    pure (la :: las)
termination_by (sizeOf args, 0)

end

/-! ## Logical plans (modelled from the spec, §3) and the plan builder -/

/-- Modelled from the spec: the file type of a CREATE EXTERNAL TABLE. -/
inductive FileType where
  | csv
  | ndJson
  | parquet
deriving DecidableEq

/-- Modelled from the spec: the logical-plan tree emitted by the
translator. -/
inductive LogicalPlan where
  | emptyRelation
  | tableScan (schemaName tableName : String) (tableSchema : Schema)
      (aliasName : Option String)
  | filterP (predicate : Expr) (input : LogicalPlan)
  | projection (exprs : List Expr) (input : LogicalPlan) (schema : Schema)
  | aggregateP (groupExpr aggrExpr : List Expr) (input : LogicalPlan)
      (schema : Schema)
  | sortP (exprs : List Expr) (input : LogicalPlan)
  | limitP (n : Nat) (input : LogicalPlan)
  | union (inputs : List LogicalPlan) (schema : Schema)
      (aliasName : Option String)
  | createExternalTable (schema : Schema) (name location : String)
      (fileType : FileType) (hasHeader : Bool)
  | explainP (verbose : Bool) (plan : LogicalPlan)
      (stringifiedPlans : List String) (schema : Schema)

/-- Modelled from the spec: `LogicalPlan::schema` — the output schema of
a plan node. -/
def LogicalPlan.schema : LogicalPlan → Schema
  | .emptyRelation => []
  | .tableScan _ _ s _ => s
  | .filterP _ input => input.schema
  | .projection _ _ s => s
  | .aggregateP _ _ _ s => s
  | .sortP _ input => input.schema
  | .limitP _ input => input.schema
  | .union _ s _ => s
  | .createExternalTable s _ _ _ _ => s
  | .explainP _ _ _ s => s

/-- Modelled from the spec: `LogicalPlan::aliased_schema` — the alias →
schema map visible at a node (the spec flags its exact population as
ambiguous, §9.4; no claim depends on it). -/
def LogicalPlan.aliasedSchema : LogicalPlan → List (String × Schema)
  | .tableScan _ _ s (some a) => [(a, s)]
  | .filterP _ input => input.aliasedSchema
  | .projection _ input _ => input.aliasedSchema
  | .aggregateP _ _ input _ => input.aliasedSchema
  | .sortP _ input => input.aliasedSchema
  | .limitP _ input => input.aliasedSchema
  | .union _ s (some a) => [(a, s)]
  | _ => []

/-- Modelled from the spec: wildcard expansion done by the plan builder
when projecting (a `Wildcard` expression stands for all input fields). -/
def expandWildcard (schema : Schema) (exprs : List Expr) : List Expr :=
  exprs.flatMap
    (fun e =>
      match e with
      | .wildcard => schema.map (fun f => Expr.column f.name)
      | e => [e])

/-- Modelled from the spec: `LogicalPlanBuilder::empty().build()`. -/
def builderEmpty : LogicalPlan := .emptyRelation

/-- Modelled from the spec: `LogicalPlanBuilder::scan(...)` with no
projection. -/
def builderScan (schemaName tableName : String) (tableSchema : Schema)
    (aliasName : Option String) : LogicalPlan :=
  .tableScan schemaName tableName tableSchema aliasName

/-- Modelled from the spec: `LogicalPlanBuilder::filter(...)`. -/
def builderFilter (input : LogicalPlan) (predicate : Expr) : LogicalPlan :=
  .filterP predicate input

/-- Modelled from the spec: `LogicalPlanBuilder::project(...)` — the
schema has one field per (wildcard-expanded) expression. -/
def builderProject (input : LogicalPlan) (exprs : List Expr) : LogicalPlan :=
  let ex := expandWildcard input.schema exprs
  .projection ex input (ex.map (exprToField input.schema))

/-- Modelled from the spec: `LogicalPlanBuilder::aggregate(...)` — the
schema has one field per group expression followed by one per aggregate
expression. -/
def builderAggregate (input : LogicalPlan) (groupExpr aggrExpr : List Expr) :
    LogicalPlan :=
  .aggregateP groupExpr aggrExpr input
    ((groupExpr ++ aggrExpr).map (exprToField input.schema))

/-- Modelled from the spec: `LogicalPlanBuilder::sort(...)`. -/
def builderSort (input : LogicalPlan) (exprs : List Expr) : LogicalPlan :=
  .sortP exprs input

/-- Modelled from the spec: `LogicalPlanBuilder::limit(...)`. -/
def builderLimit (input : LogicalPlan) (n : Nat) : LogicalPlan :=
  .limitP n input

/-! ## The SELECT pipeline helpers -/

/-- `SqlToRel::filter`: apply the optional WHERE predicate. -/
def filter (cat : Catalog) (plan : LogicalPlan) (predicate : Option SQLExpr) :
    Outcome LogicalPlan :=
  match predicate with
  | some predicate_expr =>
    match sql_to_rex cat plan.schema plan.aliasedSchema predicate_expr with
    | .ok e => .ok (builderFilter plan e)
    | .err er => .err er
    | .panicked m => .panicked m
  | none => .ok plan

/-- `SqlToRel::project`: wrap a plan in a projection. -/
def project (input : LogicalPlan) (expr : List Expr) : Outcome LogicalPlan :=
  .ok (builderProject input expr)

/-- Insertion into a sorted list of strings (ascending). -/
def insertSorted (x : String) : List String → List String
  | [] => [x]
  | y :: ys => if x ≤ y then x :: y :: ys else y :: insertSorted x ys

/-- `Vec::sort` on strings (the comparison is byte-lexicographic in Rust
and codepoint-lexicographic here; the two agree on UTF-8). -/
def sortStrings : List String → List String
  | [] => []
  | x :: xs => insertSorted x (sortStrings xs)

/-- Modelled from the spec: Rust `usize` subtraction `n - 1` under the
release profile: it wraps on underflow (`0 - 1 = 2^64 - 1`); a debug
build would abort instead. -/
def usizeWrapSub1 (n : Nat) : Nat :=
  (n + 18446744073709551615) % 18446744073709551616

/-- The per-item closure of `SqlToRel::aggregate` computing one group
expression: a bare number literal is a 1-based index into the projection
list; anything else is lowered against the input schema. -/
def group_expr_item (cat : Catalog) (input : LogicalPlan)
    (projection_expr : List Expr) (e : SQLExpr) : Outcome Expr :=
  match e with
  | .value (.number nTok) =>
    match parseUsize nTok with
    | some n =>
      if h : usizeWrapSub1 n < projection_expr.length ∧ 1 ≤ n then
        let pe := projection_expr.get ⟨usizeWrapSub1 n, h.1⟩
        if is_aggregate_expr pe then
          -- the source formats the expression with `{:?}`; the exact
          -- text is not pinned
          .err (.general ("Can't group by aggregate function: " ++ exprName pe))
        else .ok pe
      else
        .err (.general ("Select column reference should be within 1.." ++
          toString projection_expr.length ++ " but found " ++ toString n))
    | none => .err (.general ("Can't parse " ++ nTok ++ " as number"))
  | _ => sql_to_rex cat input.schema input.aliasedSchema e

/-- `SqlToRel::aggregate`: wrap a plan in an aggregate, checking the
GROUP BY / projection consistency and re-projecting to preserve the
requested field order. -/
def aggregate (cat : Catalog) (input : LogicalPlan)
    (projection_expr : List Expr) (group_by : List SQLExpr)
    (aggr_expr : List Expr) : Outcome LogicalPlan :=
  match mapMOutcome (group_expr_item cat input projection_expr) group_by with
  | .err er => .err er
  | .panicked m => .panicked m
  | .ok group_expr =>
    let non_aggr_projection :=
      projection_expr.filter (fun e => !is_aggregate_expr e)
    let group_expr_names := sortStrings (group_expr.map exprName)
    let non_aggr_projection_names :=
      sortStrings (non_aggr_projection.map exprName)
    if group_expr_names ≠ non_aggr_projection_names then
      .err (.plan "Projection references non-aggregate values")
    else
      let plan := builderAggregate input group_expr aggr_expr
      let columns := plan.schema.map (fun f => Expr.column f.name)
      let fieldNames := plan.schema.map (fun f => f.name)
      let expected_columns :=
        projection_expr.map (replace_aggregate_expr_in_projection fieldNames)
      if expected_columns.map exprName ≠ columns.map exprName then
        project plan expected_columns
      else .ok plan

/-- `SqlToRel::limit`: wrap a plan in a limit; the lowered expression
must be an `Int64` literal (the `as usize` cast wraps mod `2^64`). -/
def limit (cat : Catalog) (input : LogicalPlan) (lim : Option SQLExpr) :
    Outcome LogicalPlan :=
  match lim with
  | some limit_expr =>
    match sql_to_rex cat input.schema input.aliasedSchema limit_expr with
    | .ok (.literal (.int64 n)) =>
      .ok (builderLimit input ((n.emod 18446744073709551616).toNat))
    | .ok _ => .err (.plan "Unexpected expression for LIMIT clause")
    | .err er => .err er
    | .panicked m => .panicked m
  | none => .ok input

/-- Modelled from the spec: a `sqlparser` `OrderByExpr`. -/
structure OrderByExpr where
  expr : SQLExpr
  asc : Option Bool
  nullsFirst : Option Bool

/-- `SqlToRel::order_by`: wrap the plan in a sort.  The source calls
`.unwrap()` on the lowered expression, so a lowering failure panics
instead of propagating as an error. -/
def order_by (cat : Catalog) (plan : LogicalPlan) (obs : List OrderByExpr) :
    Outcome LogicalPlan :=
  if obs.length = 0 then .ok plan
  else
    let input_schema := plan.schema
    match
      mapMOutcome
        (fun (e : OrderByExpr) =>
          match sql_to_rex cat input_schema plan.aliasedSchema e.expr with
          | .ok x =>
            Outcome.ok (Expr.sortE x (e.asc.getD true) (e.nullsFirst.getD true))
          | .err _ =>
            Outcome.panicked "called Result unwrap on an Err value"
          | .panicked m => Outcome.panicked m)
        obs with
    | .ok order_by_rex => .ok (builderSort plan order_by_rex)
    | .err er => .err er
    | .panicked m => .panicked m

/-- Modelled from the spec: a `sqlparser` `SelectItem`. -/
inductive SelectItem where
  | unnamedExpr (e : SQLExpr)
  | exprWithAlias (e : SQLExpr) (aliasName : String)
  | wildcard
  | qualifiedWildcard (name : String)

/-- `SqlToRel::sql_select_to_rex`: lower one select item. -/
def sql_select_to_rex (cat : Catalog) (schema : Schema)
    (aliased_schema : List (String × Schema)) (sql : SelectItem) :
    Outcome Expr :=
  match sql with
  | .unnamedExpr e => sql_to_rex cat schema aliased_schema e
  | .exprWithAlias e a =>
    match sql_to_rex cat schema aliased_schema e with
    | .ok x => .ok (.aliasE x a)
    | .err er => .err er
    | .panicked m => .panicked m
  | .wildcard => .ok .wildcard
  | .qualifiedWildcard _ =>
    .err (.notImplemented "Qualified wildcards are not supported")

/-- `itertools::unique_by` on computed names (first occurrence wins). -/
def uniqueByNameGo (seen : List String) : List Expr → List Expr
  | [] => []
  | e :: es =>
    if exprName e ∈ seen then uniqueByNameGo seen es
    else e :: uniqueByNameGo (exprName e :: seen) es

/-- Deduplicate collected aggregate expressions by computed name. -/
def uniqueByName (l : List Expr) : List Expr := uniqueByNameGo [] l

/-! ## Queries and statements (AST modelled from the spec, §6) -/

/-- Modelled from the spec: `sqlparser` set operators. -/
inductive SetOperator where
  | union
  | exceptOp
  | intersectOp
deriving DecidableEq

mutual

/-- Modelled from the spec: a `sqlparser` `Query` (body, ORDER BY,
LIMIT). -/
inductive Query where
  | mk (body : SetExpr) (orderBy : List OrderByExpr) (limitE : Option SQLExpr)

/-- Modelled from the spec: a `sqlparser` `SetExpr`. -/
inductive SetExpr where
  | selectE (s : Select)
  | setOperation (op : SetOperator) (all : Bool) (left right : SetExpr)
  | otherSet (debugName : String)

/-- Modelled from the spec: a `sqlparser` `Select`. -/
inductive Select where
  | mk (projection : List SelectItem) (fromClause : List TableWithJoins)
      (selection : Option SQLExpr) (groupBy : List SQLExpr)
      (having : Option SQLExpr)

/-- Modelled from the spec: a `sqlparser` `TableWithJoins` (the planner
only uses the relation). -/
inductive TableWithJoins where
  | mk (relation : TableFactor)

/-- Modelled from the spec: a `sqlparser` `TableFactor`. -/
inductive TableFactor where
  | table (name : String) (aliasName : Option String)
  | derived (subquery : Query) (aliasName : Option String)
  | otherFactor (debugName : String)

end

mutual

/-- `SqlToRel::query_to_plan_with_alias`: body, then ORDER BY, then
LIMIT. -/
def query_to_plan_with_alias (cat : Catalog) (query : Query)
    (aliasName : Option String) : Outcome LogicalPlan :=
  match query with
  | .mk body ob lim => do
    let plan ← set_expr_to_plan cat body aliasName
    let plan2 ← order_by cat plan ob
    limit cat plan2 lim
termination_by sizeOf query

/-- `SqlToRel::set_expr_to_plan`: SELECT or UNION ALL. -/
def set_expr_to_plan (cat : Catalog) (set_expr : SetExpr)
    (aliasName : Option String) : Outcome LogicalPlan :=
  match set_expr with
  | .selectE s => select_to_plan cat s
  | .setOperation op all l r =>
    match op, all with
    | .union, true => do
      let left_plan ← set_expr_to_plan cat l none
      let right_plan ← set_expr_to_plan cat r none
      let inputs :=
        ([left_plan, right_plan]).flatMap
          (fun p =>
            match p with
            | .union ins _ _ => ins
            | x => [x])
      match inputs with
      | [] =>
        -- the source appends the Display of the set expression; the
        -- text is not pinned
        Outcome.err (.execution "Empty UNION")
      | i0 :: rest =>
        if (i0 :: rest).all (fun s => s.schema == i0.schema) then
          pure (.union (i0 :: rest) i0.schema aliasName)
        else
          Outcome.err (.execution
            "UNION ALL schema expected to be the same across selects")
    | _, _ => .err (.notImplemented "Only UNION ALL is supported")
  | .otherSet d =>
    .err (.notImplemented ("Query " ++ d ++ " not implemented yet"))
termination_by sizeOf set_expr

/-- `SqlToRel::select_to_plan`: the SELECT pipeline — reject HAVING,
build the FROM relation, filter, lower the projection, collect unique
aggregates, then aggregate or project. -/
def select_to_plan (cat : Catalog) (select : Select) : Outcome LogicalPlan :=
  match select with
  | .mk projection fromClause selection groupBy having =>
    match having with
    | some _ => .err (.notImplemented "HAVING is not implemented yet")
    | none => do
      let plan0 ← from_join_to_plan cat fromClause
      let plan ← filter cat plan0 selection
      let projection_expr ←
        mapMOutcome (sql_select_to_rex cat plan.schema plan.aliasedSchema)
          projection
      let aggr_expr :=
        uniqueByName
          ((projection_expr.filter (fun e => is_aggregate_expr e)).flatMap
            (fun e => collect_aggregate_expr e []))
      if groupBy.length > 0 || aggr_expr.length > 0 then
        aggregate cat plan projection_expr groupBy aggr_expr
      else project plan projection_expr
termination_by sizeOf select

/-- `SqlToRel::from_join_to_plan`: zero tables → empty relation, one
table or derived subquery → scan or recursive lowering. -/
def from_join_to_plan (cat : Catalog) (fromClause : List TableWithJoins) :
    Outcome LogicalPlan :=
  match fromClause with
  | [] => .ok builderEmpty
  | [twj] =>
    match twj with
    | .mk relation =>
      match relation with
      | .table name aliasName =>
        match cat.getTableMeta name with
        | some schema => .ok (builderScan "default" name schema aliasName)
        | none => .err (.plan ("no schema found for table " ++ name))
      | .derived subquery aliasName =>
        query_to_plan_with_alias cat subquery aliasName
      | .otherFactor _ =>
        .err (.notImplemented "Subqueries are still not supported")
  | _ =>
    .err (.notImplemented "FROM with multiple tables is still not implemented")
termination_by sizeOf fromClause

end

/-- `SqlToRel::query_to_plan`. -/
def query_to_plan (cat : Catalog) (query : Query) : Outcome LogicalPlan :=
  query_to_plan_with_alias cat query none

/-! ## Statements -/

/-- Modelled from the spec: a column option of a column definition. -/
inductive ColumnOption where
  | nullOpt
  | otherOpt (debugName : String)
deriving DecidableEq

/-- Modelled from the spec: a `sqlparser` column definition. -/
structure SQLColumnDef where
  name : String
  dataType : SQLDataType
  options : List ColumnOption

/-- Modelled from the spec: the DataFusion-parser CREATE EXTERNAL TABLE
statement. -/
structure CreateExternalTableStmt where
  name : String
  columns : List SQLColumnDef
  fileType : FileType
  hasHeader : Bool
  location : String

/-- Modelled from the spec: a `sqlparser` statement (only `Query` is
implemented). -/
inductive Stmt where
  | query (q : Query)
  | otherStmt (debugName : String)

/-- Modelled from the spec: the DataFusion parser statement. -/
inductive DFStatement where
  | statement (s : Stmt)
  | createExternalTable (c : CreateExternalTableStmt)
  | explainStmt (verbose : Bool) (inner : DFStatement)

/-- `SqlToRel::build_schema`: build an arrow schema from column
definitions. -/
def build_schema (columns : List SQLColumnDef) : Except DFError Schema :=
  columns.mapM
    (fun c =>
      (make_data_type c.dataType).map
        (fun dt =>
          Field.mk c.name dt (c.options.any (fun o => o == ColumnOption.nullOpt))))

/-- The common tail of `external_table_to_plan`: build the schema and
emit the node. -/
def external_table_emit (statement : CreateExternalTableStmt) :
    Outcome LogicalPlan :=
  match build_schema statement.columns with
  | .ok schema =>
    .ok (.createExternalTable schema statement.name statement.location
      statement.fileType statement.hasHeader)
  | .error er => .err er

/-- `SqlToRel::external_table_to_plan`: semantic checks by file type,
then emit the `CreateExternalTable` node. -/
def external_table_to_plan (statement : CreateExternalTableStmt) :
    Outcome LogicalPlan :=
  match statement.fileType with
  | .csv =>
    if statement.columns.isEmpty then
      .err (.plan "Column definitions required for CSV files. None found")
    else external_table_emit statement
  | .parquet =>
    if !statement.columns.isEmpty then
      .err (.plan "Column definitions can not be specified for PARQUET files.")
    else external_table_emit statement
  | .ndJson => external_table_emit statement

mutual

/-- Modelled from the spec: the `{:#?}` rendering of a plan stored in an
EXPLAIN node (the exact text is external to the source file; any
deterministic rendering works). -/
def planDebug : LogicalPlan → String
  | .emptyRelation => "EmptyRelation"
  | .tableScan _ t _ _ => "TableScan: " ++ t
  | .filterP p input => "Filter: " ++ exprName p ++ "; " ++ planDebug input
  | .projection ex input _ =>
    "Projection: " ++ exprNameList ex ++ "; " ++ planDebug input
  | .aggregateP g a input _ =>
    "Aggregate: [" ++ exprNameList g ++ "], [" ++ exprNameList a ++ "]; " ++
      planDebug input
  | .sortP ex input => "Sort: " ++ exprNameList ex ++ "; " ++ planDebug input
  | .limitP n input => "Limit: " ++ toString n ++ "; " ++ planDebug input
  | .union ins _ _ => "Union(" ++ planDebugList ins ++ ")"
  | .createExternalTable _ n _ _ _ => "CreateExternalTable: " ++ n
  | .explainP _ p _ _ => "Explain(" ++ planDebug p ++ ")"
termination_by p => sizeOf p

/-- Renders a list of plans. -/
def planDebugList : List LogicalPlan → String
  | [] => ""
  | [p] => planDebug p
  | p :: ps => planDebug p ++ ", " ++ planDebugList ps
termination_by l => sizeOf l

end

/-- Modelled from the spec: `LogicalPlan::explain_schema()`. -/
def explainSchema : Schema :=
  [Field.mk "plan_type" .utf8 false, Field.mk "plan" .utf8 false]

/-- `SqlToRel::statement_to_plan` (with `sql_statement_to_plan` and
`explain_statement_to_plan` inlined at the dispatch): the public entry
point. -/
def statement_to_plan (cat : Catalog) : DFStatement → Outcome LogicalPlan
  | .createExternalTable s => external_table_to_plan s
  | .statement (.query q) => query_to_plan cat q
  | .statement (.otherStmt _) =>
    .err (.notImplemented "Only SELECT statements are implemented")
  | .explainStmt verbose inner =>
    match statement_to_plan cat inner with
    | .ok plan => .ok (.explainP verbose plan [planDebug plan] explainSchema)
    | .err er => .err er
    | .panicked m => .panicked m

end Planner

namespace Planner

/-! ## Helper lemmas -/

theorem mapMOutcome_ok_mem {α β : Type} (f : α → Outcome β) :
    ∀ (as : List α) (bs : List β), mapMOutcome f as = .ok bs →
      ∀ a ∈ as, ∃ b, f a = .ok b := by
  intro as
  induction as with
  | nil =>
    intro bs h a ha
    cases ha
  | cons x xs ih =>
    intro bs h a ha
    unfold mapMOutcome at h
    cases hfx : f x with
    | ok b =>
      rw [hfx] at h
      cases hrest : mapMOutcome f xs with
      | ok bs2 =>
        rw [hrest] at h
        cases List.mem_cons.mp ha with
        | inl hax => subst hax; exact ⟨b, hfx⟩
        | inr hxs => exact ih bs2 hrest a hxs
      | err e => rw [hrest] at h; cases h
      | panicked m => rw [hrest] at h; cases h
    | err e => rw [hfx] at h; cases h
    | panicked m => rw [hfx] at h; cases h

theorem parseUsizeDigits_lt (cs : List Char) (n : Nat)
    (h : parseUsizeDigits cs = some n) : n < 18446744073709551616 := by
  unfold parseUsizeDigits at h
  split at h
  · split at h
    · injection h with h2
      subst h2
      assumption
    · cases h
  · cases h

theorem parseUsize_lt (s : String) (n : Nat) (h : parseUsize s = some n) :
    n < 18446744073709551616 := by
  unfold parseUsize at h
  split at h
  · exact parseUsizeDigits_lt _ n h
  · cases h
  · exact parseUsizeDigits_lt _ n h

theorem usize_cond_iff (n len : Nat) (hn : n < 18446744073709551616)
    (hlen : len < 18446744073709551616) :
    (usizeWrapSub1 n < len ∧ 1 ≤ n) ↔ (1 ≤ n ∧ n ≤ len) := by
  unfold usizeWrapSub1
  omega

/-! ## Test fixtures (concrete catalogs and schemas for the witnesses) -/

/-- A catalog that resolves nothing. -/
def trivialCat : Catalog :=
  ⟨fun _ => none, fun _ => none, fun _ => none, fun _ => none, fun _ => none⟩

/-- The schema of the `person` test table (a fragment). -/
def personSchema : Schema := [⟨"state", .utf8, false⟩, ⟨"age", .int32, false⟩]

/-- A catalog exposing only the `person` table. -/
def personCat : Catalog :=
  ⟨fun _ => none, fun _ => none, fun _ => none, fun _ => none,
    fun n => if n = "person" then some personSchema else none⟩

/-- The scan of the `person` table produced by the FROM step. -/
def scanPerson : LogicalPlan := .tableScan "default" "person" personSchema none

/-- A catalog with the built-in `if` scalar, the `count` and `min`
aggregates, and the `person` table. -/
def aggCat : Catalog :=
  ⟨fun s => if s = "if" then some ⟨"if"⟩ else none,
    fun s =>
      if s = "count" then some .count
      else if s = "min" then some .min
      else none,
    fun _ => none, fun _ => none,
    fun n => if n = "person" then some personSchema else none⟩

/-- A catalog with two one-column tables of different schemas. -/
def unionCat : Catalog :=
  ⟨fun _ => none, fun _ => none, fun _ => none, fun _ => none,
    fun n =>
      if n = "t1" then some [⟨"a", .utf8, false⟩]
      else if n = "t2" then some [⟨"b", .int32, false⟩]
      else none⟩

/-! ## Claim C2 -/

/-- **C2 counterexample**: the claim says both type mappings send `TEXT`
to `Utf8`; in fact `convert_data_type` (the CAST mapping) has no arm for
`TEXT` and fails with `NotImplemented`. -/
theorem c2_counterexample :
    convert_data_type SQLDataType.text ≠ Except.ok DataType.utf8 ∧
    convert_data_type SQLDataType.text =
      Except.error (DFError.notImplemented "Unsupported SQL type Text") := by
  constructor
  · simp [convert_data_type]
  · rfl

/-- **C2 (amended)**: the DDL mapping `make_data_type` sends `TEXT` to
`Utf8`, but the CAST mapping `convert_data_type` does not handle `TEXT`
and returns `NotImplemented`; `CHAR(_)` and `VARCHAR(_)` map to `Utf8`
at both call sites. -/
theorem c2_text_mapping_amended :
    make_data_type SQLDataType.text = .ok DataType.utf8 ∧
    convert_data_type SQLDataType.text =
      .error (.notImplemented "Unsupported SQL type Text") ∧
    (∀ l, make_data_type (SQLDataType.char l) = .ok DataType.utf8 ∧
      convert_data_type (SQLDataType.char l) = .ok DataType.utf8) ∧
    (∀ l, make_data_type (SQLDataType.varchar l) = .ok DataType.utf8 ∧
      convert_data_type (SQLDataType.varchar l) = .ok DataType.utf8) :=
  ⟨rfl, rfl, fun _ => ⟨rfl, rfl⟩, fun _ => ⟨rfl, rfl⟩⟩

/-! ## Claim C5 -/

/-- **C5**: the DDL mapping sends `TIMESTAMP` to `Date64(Millisecond)`
while the CAST mapping sends `TIMESTAMP` to `Timestamp(Nanosecond, none)`;
the two functions differ on this input. -/
theorem c5_timestamp_divergence :
    make_data_type SQLDataType.timestamp = .ok (DataType.date64 .millisecond) ∧
    convert_data_type SQLDataType.timestamp =
      .ok (DataType.timestamp .nanosecond none) ∧
    make_data_type SQLDataType.timestamp ≠
      convert_data_type SQLDataType.timestamp := by
  refine ⟨rfl, rfl, ?_⟩
  simp [make_data_type, convert_data_type]

/-! ## Claim C3 -/

/-- **C3**: for a GROUP BY item that is a bare integer literal `n` (that
parses as a 64-bit `usize`), the item lowers successfully only when
`1 ≤ n ≤ len(projection_expr)`; for every `n` outside that range
(including `n = 0`, where the `usize` subtraction `n - 1` wraps) the item
returns exactly the error value
`General("Select column reference should be within 1..{len} but found {n}")`;
and a successful `aggregate` translation requires every GROUP BY item to
have lowered successfully. -/
theorem c3_group_by_index_bounds
    (cat : Catalog) (input : LogicalPlan) (projection_expr : List Expr)
    (group_by : List SQLExpr) (aggr_expr : List Expr)
    (nTok : String) (n : Nat)
    (hlen : projection_expr.length < 18446744073709551616)
    (hparse : parseUsize nTok = some n) :
    ((∃ x, group_expr_item cat input projection_expr
        (.value (.number nTok)) = .ok x) →
      1 ≤ n ∧ n ≤ projection_expr.length) ∧
    (¬ (1 ≤ n ∧ n ≤ projection_expr.length) →
      group_expr_item cat input projection_expr (.value (.number nTok)) =
        .err (.general ("Select column reference should be within 1.." ++
          toString projection_expr.length ++ " but found " ++ toString n))) ∧
    (∀ p, aggregate cat input projection_expr group_by aggr_expr = .ok p →
      ∀ e ∈ group_by, ∃ x,
        group_expr_item cat input projection_expr e = .ok x) := by
  have hn := parseUsize_lt nTok n hparse
  have hiff := usize_cond_iff n projection_expr.length hn hlen
  refine ⟨?_, ?_, ?_⟩
  · rintro ⟨x, hx⟩
    simp only [group_expr_item, hparse] at hx
    by_cases hc : usizeWrapSub1 n < projection_expr.length ∧ 1 ≤ n
    · exact hiff.mp hc
    · rw [dif_neg hc] at hx
      cases hx
  · intro hrange
    simp only [group_expr_item, hparse]
    rw [dif_neg (fun hc => hrange (hiff.mp hc))]
  · intro p hp e he
    unfold aggregate at hp
    cases hmap : mapMOutcome (group_expr_item cat input projection_expr)
        group_by with
    | err er => rw [hmap] at hp; cases hp
    | panicked m => rw [hmap] at hp; cases hp
    | ok ge => exact mapMOutcome_ok_mem _ group_by ge hmap e he

/-- Witness for C3 at `n = 0` over a one-element projection: the item
returns the exact `General` error value. -/
theorem c3_group_by_index_bounds_witness :
    group_expr_item trivialCat .emptyRelation [Expr.column "a"]
      (.value (.number "0")) =
      .err (.general ("Select column reference should be within 1.." ++
        toString [Expr.column "a"].length ++ " but found " ++
        toString (0 : Nat))) :=
  (c3_group_by_index_bounds trivialCat .emptyRelation [Expr.column "a"]
    [] [] "0" 0 (by decide) rfl).2.1 (by decide)

/-! ## Claim C1 -/

/-- **C1**: in the aggregate branch, an accepted translation has the
sorted list of computed names of the group expressions equal to the
sorted list of computed names of the non-aggregate projection
expressions; whenever the two sorted lists differ, `aggregate` fails with
exactly `Plan("Projection references non-aggregate values")` and no plan
is produced. -/
theorem c1_projection_groupby_consistency
    (cat : Catalog) (input : LogicalPlan) (projection_expr : List Expr)
    (group_by : List SQLExpr) (aggr_expr : List Expr) :
    (∀ p, aggregate cat input projection_expr group_by aggr_expr = .ok p →
      ∃ group_expr,
        mapMOutcome (group_expr_item cat input projection_expr) group_by =
          .ok group_expr ∧
        sortStrings (group_expr.map exprName) =
          sortStrings
            ((projection_expr.filter (fun e => !is_aggregate_expr e)).map
              exprName)) ∧
    (∀ group_expr,
      mapMOutcome (group_expr_item cat input projection_expr) group_by =
        .ok group_expr →
      sortStrings (group_expr.map exprName) ≠
        sortStrings
          ((projection_expr.filter (fun e => !is_aggregate_expr e)).map
            exprName) →
      aggregate cat input projection_expr group_by aggr_expr =
        .err (.plan "Projection references non-aggregate values")) := by
  constructor
  · intro p hp
    cases hmap : mapMOutcome (group_expr_item cat input projection_expr)
        group_by with
    | err er => unfold aggregate at hp; rw [hmap] at hp; cases hp
    | panicked m => unfold aggregate at hp; rw [hmap] at hp; cases hp
    | ok ge =>
      refine ⟨ge, rfl, ?_⟩
      simp only [aggregate, hmap] at hp
      by_cases hnames : sortStrings (ge.map exprName) =
          sortStrings
            ((projection_expr.filter (fun e => !is_aggregate_expr e)).map
              exprName)
      · exact hnames
      · rw [if_pos hnames] at hp
        cases hp
  · intro ge hmap hne
    simp only [aggregate, hmap]
    rw [if_pos hne]

/-- Witness for C1: `SELECT state ... GROUP BY 1` over the person table
is accepted, and the two sorted name lists coincide. -/
theorem c1_projection_groupby_consistency_witness :
    ∃ ge,
      mapMOutcome (group_expr_item trivialCat scanPerson [Expr.column "state"])
        [.value (.number "1")] = .ok ge ∧
      sortStrings (ge.map exprName) =
        sortStrings
          ((([Expr.column "state"]).filter (fun e => !is_aggregate_expr e)).map
            exprName) :=
  (c1_projection_groupby_consistency trivialCat scanPerson [Expr.column "state"]
    [.value (.number "1")] []).1
    (builderAggregate scanPerson [Expr.column "state"] [])
    (by
      simp [aggregate, group_expr_item, mapMOutcome, sortStrings, insertSorted,
        exprName, is_aggregate_expr, builderAggregate, exprToField, exprType,
        fieldWithName, LogicalPlan.schema, replace_aggregate_expr_in_projection,
        usizeWrapSub1, parseUsize, parseUsizeDigits, parseDigits])

/-! ## Bind inversion and argument-list characterisations -/

theorem bind_def {α β : Type} (x : Outcome α) (f : α → Outcome β) :
    x >>= f = Outcome.bind x f := rfl

theorem pure_def {α : Type} (a : α) : (pure a : Outcome α) = .ok a := rfl

theorem Outcome.bind_ok_iff {α β : Type} (x : Outcome α) (f : α → Outcome β)
    (b : β) : Outcome.bind x f = .ok b ↔ ∃ a, x = .ok a ∧ f a = .ok b := by
  cases x <;> simp [Outcome.bind]

theorem sql_to_rex_list_ok_iff (cat : Catalog) (schema : Schema)
    (aliased : List (String × Schema)) :
    ∀ (args : List SQLExpr) (largs : List Expr),
      sql_to_rex_list cat schema aliased args = .ok largs ↔
        List.Forall₂ (fun a b => sql_to_rex cat schema aliased a = .ok b)
          args largs := by
  intro args
  induction args with
  | nil =>
    intro largs
    constructor
    · intro h
      simp only [sql_to_rex_list] at h
      cases h
      exact List.Forall₂.nil
    · intro h
      cases h
      simp [sql_to_rex_list]
  | cons a as ih =>
    intro largs
    simp only [sql_to_rex_list, bind_def, Outcome.bind_ok_iff, pure_def,
      Outcome.ok.injEq]
    constructor
    · rintro ⟨la, ha, las, hlas, heq⟩
      subst heq
      exact List.Forall₂.cons ha ((ih las).mp hlas)
    · intro hfa
      cases hfa with
      | cons hab hrest =>
        exact ⟨_, hab, _, (ih _).mpr hrest, rfl⟩

theorem sql_to_rex_count_args_ok_iff (cat : Catalog) (schema : Schema)
    (aliased : List (String × Schema)) :
    ∀ (args : List SQLExpr) (largs : List Expr),
      sql_to_rex_count_args cat schema aliased args = .ok largs ↔
        List.Forall₂ (fun a b =>
          (countArgSubstituted a = true → b = litU8 1) ∧
          (countArgSubstituted a = false →
            sql_to_rex cat schema aliased a = .ok b)) args largs := by
  intro args
  induction args with
  | nil =>
    intro largs
    constructor
    · intro h
      simp only [sql_to_rex_count_args] at h
      cases h
      exact List.Forall₂.nil
    · intro h
      cases h
      simp [sql_to_rex_count_args]
  | cons a as ih =>
    intro largs
    simp only [sql_to_rex_count_args, bind_def, Outcome.bind_ok_iff, pure_def,
      Outcome.ok.injEq]
    constructor
    · rintro ⟨la, ha, las, hlas, heq⟩
      subst heq
      refine List.Forall₂.cons ?_ ((ih las).mp hlas)
      by_cases hc : countArgSubstituted a = true
      · rw [if_pos hc] at ha
        injection ha with h2
        exact ⟨fun _ => h2.symm, fun hf => absurd hc (by simp [hf])⟩
      · have hcf : countArgSubstituted a = false := by
          revert hc
          cases countArgSubstituted a <;> simp
        rw [if_neg hc] at ha
        exact ⟨fun ht => absurd ht hc, fun _ => ha⟩
    · intro hfa
      cases hfa with
      | cons hab hrest =>
        refine ⟨_, ?_, _, (ih _).mpr hrest, rfl⟩
        by_cases hc : countArgSubstituted a = true
        · rw [if_pos hc, hab.1 hc]
        · have hcf : countArgSubstituted a = false := by
            revert hc
            cases countArgSubstituted a <;> simp
          rw [if_neg hc]
          exact hab.2 hcf

/-! ## Claim C7 -/

/-- **C7**: when a call's lowercased name resolves to the built-in
aggregate COUNT (and neither the scalar catalog nor the NULLIF special
form intercepts it), every argument that is a number literal or a
wildcard is replaced by `Literal(UInt8 1)`, every other argument is
lowered normally, and the result is
`AggregateFunction{fun = COUNT, distinct, args}`; for every other
built-in aggregate all arguments are lowered normally with no
substitution. -/
theorem c7_count_substitution (cat : Catalog) (schema : Schema)
    (aliased : List (String × Schema)) (name : String) (distinct : Bool)
    (args : List SQLExpr)
    (hscalar : cat.scalarFromStr (strToLower name) = none)
    (hnullif : ¬ strToLower (strToLower name) = "nullif") :
    (∀ r, cat.aggregateFromStr (strToLower name) = some AggFun.count →
      sql_to_rex cat schema aliased (.function name distinct args) = .ok r →
      ∃ largs, r = .aggregateFunction .count distinct largs ∧
        List.Forall₂ (fun a b =>
          (countArgSubstituted a = true → b = litU8 1) ∧
          (countArgSubstituted a = false →
            sql_to_rex cat schema aliased a = .ok b)) args largs) ∧
    (∀ f r, cat.aggregateFromStr (strToLower name) = some f → f ≠ AggFun.count →
      sql_to_rex cat schema aliased (.function name distinct args) = .ok r →
      ∃ largs, r = .aggregateFunction f distinct largs ∧
        List.Forall₂ (fun a b => sql_to_rex cat schema aliased a = .ok b)
          args largs) := by
  constructor
  · intro r hagg hr
    simp only [sql_to_rex, hscalar, if_neg hnullif] at hr
    simp only [sql_to_rex_function_tail, hagg, if_pos rfl, bind_def,
      Outcome.bind_ok_iff, pure_def, Outcome.ok.injEq] at hr
    obtain ⟨largs, hl, heq⟩ := hr
    exact ⟨largs, heq.symm,
      (sql_to_rex_count_args_ok_iff cat schema aliased args largs).mp hl⟩
  · intro f r hagg hne hr
    simp only [sql_to_rex, hscalar, if_neg hnullif] at hr
    simp only [sql_to_rex_function_tail, hagg, if_neg hne, bind_def,
      Outcome.bind_ok_iff, pure_def, Outcome.ok.injEq] at hr
    obtain ⟨largs, hl, heq⟩ := hr
    exact ⟨largs, heq.symm,
      (sql_to_rex_list_ok_iff cat schema aliased args largs).mp hl⟩

/-- Witness for C7: `COUNT(*)` lowers to
`AggregateFunction(COUNT, [Literal(UInt8 1)])`. -/
theorem c7_count_substitution_witness :
    ∃ largs,
      Expr.aggregateFunction AggFun.count false [litU8 1] =
        .aggregateFunction .count false largs ∧
      List.Forall₂ (fun a b =>
        (countArgSubstituted a = true → b = litU8 1) ∧
        (countArgSubstituted a = false →
          sql_to_rex aggCat personSchema [] a = .ok b))
        [SQLExpr.wildcard] largs :=
  (c7_count_substitution aggCat personSchema [] "COUNT" false [.wildcard]
    (by decide) (by decide)).1
    (.aggregateFunction .count false [litU8 1]) (by decide)
    (by
      simp [sql_to_rex, sql_to_rex_function_tail, sql_to_rex_count_args,
        aggCat, countArgSubstituted, bind_def, Outcome.bind, pure_def,
        (by decide : strToLower "COUNT" = "count"),
        (by decide : strToLower "count" = "count")])

/-! ## Claim C8 -/

/-- **C8**: with a catalog in which `nullif` is not a built-in scalar and
`if` is (as in this repository), a call whose name lowercases to
`nullif` is rewritten, when it has exactly two arguments, to the built-in
scalar call `IF(a != b, a)`; with any other number of arguments it fails
with a `General` error. -/
theorem sql_to_rex_nullif_wrong_arity (cat : Catalog) (schema : Schema)
    (aliased : List (String × Schema)) (if_fn : ScalarFun) :
    ∀ args : List SQLExpr, args.length ≠ 2 →
      sql_to_rex_nullif cat schema aliased if_fn args =
        .err (.general ("nullif expects 2 arguments but found: " ++
          toString args.length ++ " arguments")) := by
  intro args h
  rcases args with _ | ⟨x, _ | ⟨y, _ | ⟨z, t⟩⟩⟩
  · simp [sql_to_rex_nullif]
  · simp [sql_to_rex_nullif]
  · exact absurd rfl h
  · simp [sql_to_rex_nullif]

theorem c8_nullif_rewrite (cat : Catalog) (schema : Schema)
    (aliased : List (String × Schema)) (name : String) (distinct : Bool)
    (if_fn : ScalarFun)
    (hscalar : cat.scalarFromStr (strToLower name) = none)
    (hlname : strToLower (strToLower name) = "nullif")
    (hif : cat.scalarFromStr "if" = some if_fn) :
    (∀ (a b : SQLExpr) (la lb : Expr),
      sql_to_rex cat schema aliased a = .ok la →
      sql_to_rex cat schema aliased b = .ok lb →
      sql_to_rex cat schema aliased (.function name distinct [a, b]) =
        .ok (.scalarFunction if_fn [.binaryExpr la .notEq lb, la])) ∧
    (∀ args : List SQLExpr, args.length ≠ 2 →
      ∃ msg, sql_to_rex cat schema aliased (.function name distinct args) =
        .err (.general msg)) := by
  constructor
  · intro a b la lb ha hb
    simp [sql_to_rex, hscalar, hlname, hif, sql_to_rex_nullif, ha, hb,
      bind_def, Outcome.bind, pure_def]
  · intro args hlen2
    have hred : sql_to_rex cat schema aliased (.function name distinct args) =
        sql_to_rex_nullif cat schema aliased if_fn args := by
      simp [sql_to_rex, hscalar, hlname, hif]
    exact ⟨_, hred.trans
      (sql_to_rex_nullif_wrong_arity cat schema aliased if_fn args hlen2)⟩

/-- Witness for C8: `NULLIF(1, 0)` lowers to `if(1 != 0, 1)`. -/
theorem c8_nullif_rewrite_witness :
    sql_to_rex aggCat personSchema []
      (.function "NULLIF" false [.value (.number "1"), .value (.number "0")]) =
      .ok (.scalarFunction ⟨"if"⟩
        [.binaryExpr (litI64 1) .notEq (litI64 0), litI64 1]) :=
  (c8_nullif_rewrite aggCat personSchema [] "NULLIF" false ⟨"if"⟩
    (by decide) (by decide) (by decide)).1
    (.value (.number "1")) (.value (.number "0")) (litI64 1) (litI64 0)
    (by simp [sql_to_rex, (by decide : parseI64 "1" = some 1)])
    (by simp [sql_to_rex, (by decide : parseI64 "0" = some 0)])

/-! ## Claim C10 -/

/-- **C10**: lowering an `Identifier` byte-slices the identifier text, so
it avoids a panic exactly when the identifier is non-empty and its first
character occupies a single UTF-8 byte; for a `CompoundIdentifier` whose
first part is empty or starts with a multi-byte character, lowering
panics. -/
theorem c10_identifier_byte_slice (cat : Catalog) (schema : Schema)
    (aliased : List (String × Schema)) :
    (∀ id : String,
      (sql_to_rex cat schema aliased (.identifier id)).isPanicked = false ↔
        (id ≠ "" ∧ (id.get ⟨0⟩).utf8Size = 1)) ∧
    (∀ (v0 : String) (rest : List String),
      (v0 = "" ∨ (v0.get ⟨0⟩).utf8Size ≠ 1) →
      (sql_to_rex cat schema aliased
          (.compoundIdentifier (v0 :: rest))).isPanicked = true) := by
  constructor
  · intro id
    by_cases h1 : id = ""
    · subst h1
      simp [sql_to_rex, firstByteSlice, bind_def, Outcome.bind,
        Outcome.isPanicked]
    · by_cases h2 : (id.get ⟨0⟩).utf8Size = 1
      · refine iff_of_true ?_ ⟨h1, h2⟩
        simp only [sql_to_rex, firstByteSlice, bind_def]
        rw [if_neg h1, if_neg (not_not_intro h2)]
        simp only [Outcome.bind]
        by_cases h3 : String.singleton (id.get ⟨0⟩) = "@"
        · rw [if_pos h3]
          rfl
        · rw [if_neg h3]
          cases hf : fieldWithName schema id <;>
            simp [hf, Outcome.isPanicked]
      · refine iff_of_false ?_ (fun hcon => h2 hcon.2)
        simp only [sql_to_rex, firstByteSlice, bind_def]
        rw [if_neg h1, if_pos h2]
        simp [Outcome.bind, Outcome.isPanicked]
  · intro v0 rest h
    cases h with
    | inl h1 =>
      subst h1
      simp [sql_to_rex.eq_def, firstByteSlice, bind_def, Outcome.bind,
        Outcome.isPanicked]
    | inr h2 =>
      by_cases h1 : v0 = ""
      · subst h1
        simp [sql_to_rex.eq_def, firstByteSlice, bind_def, Outcome.bind,
          Outcome.isPanicked]
      · simp only [sql_to_rex.eq_def, firstByteSlice, bind_def]
        rw [if_neg h1, if_pos h2]
        simp [Outcome.bind, Outcome.isPanicked]

/-- Witness for C10: an identifier starting with a two-byte character
panics, and so does a compound identifier with an empty first part. -/
theorem c10_identifier_byte_slice_witness :
    (sql_to_rex trivialCat [] [] (.identifier "é")).isPanicked = true ∧
    (sql_to_rex trivialCat [] []
      (.compoundIdentifier ["", "x"])).isPanicked = true := by
  constructor
  · have h := (c10_identifier_byte_slice trivialCat [] []).1 "é"
    cases hb : (sql_to_rex trivialCat [] [] (.identifier "é")).isPanicked with
    | true => rfl
    | false => exact absurd ((h.mp hb).2) (by decide)
  · exact (c10_identifier_byte_slice trivialCat [] []).2 "" ["x"] (Or.inl rfl)

/-! ## Claim C9 -/

/-- **C9**: for a UNION ALL whose flattened input list is `i0 :: rest`,
translation fails with exactly
`ExecutionError("UNION ALL schema expected to be the same across selects")`
when the input schemas are not all structurally equal to the first one;
otherwise the emitted `Union` has exactly those inputs, its schema is the
schema of the first input, and all child schemas are structurally
equal. -/
theorem c9_union_all_schema (cat : Catalog) (l r : SetExpr)
    (aliasName : Option String) (lp rp i0 : LogicalPlan)
    (rest : List LogicalPlan)
    (hl : set_expr_to_plan cat l none = .ok lp)
    (hr : set_expr_to_plan cat r none = .ok rp)
    (hinputs : ([lp, rp]).flatMap
        (fun p =>
          match p with
          | .union ins _ _ => ins
          | x => [x]) = i0 :: rest) :
    (¬ ((i0 :: rest).all (fun s => s.schema == i0.schema) = true) →
      set_expr_to_plan cat (.setOperation .union true l r) aliasName =
        .err (.execution
          "UNION ALL schema expected to be the same across selects")) ∧
    (((i0 :: rest).all (fun s => s.schema == i0.schema) = true) →
      set_expr_to_plan cat (.setOperation .union true l r) aliasName =
        .ok (.union (i0 :: rest) i0.schema aliasName) ∧
      ∀ q ∈ i0 :: rest, q.schema = i0.schema) := by
  have hstep : set_expr_to_plan cat (.setOperation .union true l r) aliasName =
      if (i0 :: rest).all (fun s => s.schema == i0.schema) then
        .ok (.union (i0 :: rest) i0.schema aliasName)
      else
        .err (.execution
          "UNION ALL schema expected to be the same across selects") := by
    simp only [set_expr_to_plan, hl, hr, bind_def, Outcome.bind, hinputs,
      pure_def]
  constructor
  · intro hall
    rw [hstep, if_neg hall]
  · intro hall
    refine ⟨by rw [hstep, if_pos hall], ?_⟩
    intro q hq
    exact eq_of_beq (List.all_eq_true.mp hall q hq)

/-- The two single-table selects used by the C9 witness. -/
def t1Plan : LogicalPlan :=
  builderProject (.tableScan "default" "t1" [⟨"a", .utf8, false⟩] none)
    [.wildcard]

/-- See `t1Plan`. -/
def t2Plan : LogicalPlan :=
  builderProject (.tableScan "default" "t2" [⟨"b", .int32, false⟩] none)
    [.wildcard]

/-- Witness for C9: `SELECT * FROM t1 UNION ALL SELECT * FROM t2` with
differing schemas fails with the exact `ExecutionError`. -/
theorem c9_union_all_schema_witness :
    set_expr_to_plan unionCat
      (.setOperation .union true
        (.selectE (.mk [.wildcard] [.mk (.table "t1" none)] none [] none))
        (.selectE (.mk [.wildcard] [.mk (.table "t2" none)] none [] none)))
      none =
      .err (.execution
        "UNION ALL schema expected to be the same across selects") :=
  (c9_union_all_schema unionCat
    (.selectE (.mk [.wildcard] [.mk (.table "t1" none)] none [] none))
    (.selectE (.mk [.wildcard] [.mk (.table "t2" none)] none [] none))
    none t1Plan t2Plan t1Plan [t2Plan]
    (by
      simp [set_expr_to_plan, select_to_plan, from_join_to_plan, filter,
        project, mapMOutcome, sql_select_to_rex, unionCat, bind_def,
        Outcome.bind, pure_def, uniqueByName, uniqueByNameGo, builderScan,
        is_aggregate_expr, t1Plan])
    (by
      simp [set_expr_to_plan, select_to_plan, from_join_to_plan, filter,
        project, mapMOutcome, sql_select_to_rex, unionCat, bind_def,
        Outcome.bind, pure_def, uniqueByName, uniqueByNameGo, builderScan,
        is_aggregate_expr, t2Plan])
    rfl).1 (by decide)

/-! ## Claim C4 -/

/-- **C4**: the translator is not total as a function into result values:
`statement_to_plan` on `SELECT * FROM person ORDER BY nosuch` panics
inside `order_by` (which calls `.unwrap()` on the lowering result of the
ORDER BY expression) instead of returning the lowering error. -/
theorem c4_order_by_unwrap_panics :
    statement_to_plan personCat
      (.statement (.query (.mk
        (.selectE (.mk [.wildcard] [.mk (.table "person" none)] none [] none))
        [⟨.identifier "nosuch", none, none⟩] none))) =
      .panicked "called Result unwrap on an Err value" := by
  simp [statement_to_plan, query_to_plan, query_to_plan_with_alias,
    set_expr_to_plan, select_to_plan, from_join_to_plan, filter, project,
    mapMOutcome, sql_select_to_rex, personCat, bind_def, Outcome.bind,
    pure_def, uniqueByName, uniqueByNameGo, builderScan, is_aggregate_expr,
    order_by, sql_to_rex, fieldWithName, List.find?, exprName,
    LogicalPlan.schema, LogicalPlan.aliasedSchema, builderProject,
    expandWildcard, exprToField, exprType, personSchema, limit,
    (by decide : firstByteSlice "nosuch" = Outcome.ok "n")]

end Planner
